import Mathlib

/-!
Verification development for the ARIA process executor and storage
instrumentation subsystem (`aria/storage/instrumentation.py` and
`aria/orchestrator/workflows/executor/process.py`).

The Python code is shallowly embedded: Python dicts become association
lists (keys unique, insertion order), Python scalar values become the
inductive `PyVal`, the `_STUB` sentinel object becomes a dedicated
constructor, and side effects (persisting instances, fetching, setting
attributes) become explicit event traces.
-/

namespace Aria

/-- Model of the Python scalar values that flow through the instrumented
attributes: `None`, the `_STUB = object()` sentinel, strings and integers.
`_STUB` is a fresh `object()` whose equality is identity, hence it compares
unequal to every other value; the dedicated constructor captures that. -/
inductive PyVal where
  | none : PyVal
  | stub : PyVal
  | str : String → PyVal
  | int : Int → PyVal
  deriving DecidableEq, Repr

/-- Model of Python `copy.deepcopy` on the scalar values above: in a pure
value model a deep copy is the value itself (the source deep-copies to
decouple mutable aliasing, which has no counterpart for pure values). -/
def deepcopy (v : PyVal) : PyVal := v

/-- Model of Python `str(...)`, the coercion registered in `_INSTRUMENTED`
for `Node.state` and `Task.status`. -/
def strCoerce : PyVal → PyVal
  | PyVal.str s => PyVal.str s
  | PyVal.int n => PyVal.str (toString n)
  | PyVal.none => PyVal.str "None"
  | PyVal.stub => PyVal.str "object"

/-- `_Value` from `instrumentation.py`: a pair of an initial and a current
value. -/
structure Value where
  initial : PyVal
  current : PyVal
  deriving DecidableEq, Repr

/-! ### Association lists modelling Python dicts -/

/-- Python `d.get(k)` / `d[k]` lookup on an association list. -/
def assocLookup {α β : Type} [DecidableEq α] : List (α × β) → α → Option β
  | [], _ => Option.none
  | (k, v) :: rest, key => if k = key then some v else assocLookup rest key

/-- Python `d[k] = v`: replace the value at an existing key in place, or
append the binding at the end (insertion order). -/
def assocSet {α β : Type} [DecidableEq α] : List (α × β) → α → β → List (α × β)
  | [], key, value => [(key, value)]
  | (k, v) :: rest, key, value =>
    if k = key then (k, value) :: rest else (k, v) :: assocSet rest key value

/-- Python `d.pop(k, None)`: drop the binding at `k` if present. -/
def assocErase {α β : Type} [DecidableEq α] (l : List (α × β)) (key : α) :
    List (α × β) :=
  l.filter (fun p => p.1 ≠ key)

/-- Python `k in d`. -/
def containsKey {α β : Type} [DecidableEq α] (l : List (α × β)) (key : α) : Bool :=
  (assocLookup l key).isSome

/-- Python `d.setdefault(k, default)` returns the stored value. -/
def assocGetD {α β : Type} [DecidableEq α] (l : List (α × β)) (key : α) (d : β) : β :=
  (assocLookup l key).getD d

theorem assocLookup_assocSet_self {α β : Type} [DecidableEq α]
    (l : List (α × β)) (k : α) (v : β) : assocLookup (assocSet l k v) k = some v := by
  induction l with
  | nil => simp [assocSet, assocLookup]
  | cons p rest ih =>
    obtain ⟨k', v'⟩ := p
    by_cases h : k' = k
    · simp [assocSet, assocLookup, h]
    · simp [assocSet, assocLookup, h, ih]

theorem assocLookup_assocSet_ne {α β : Type} [DecidableEq α]
    (l : List (α × β)) (k k' : α) (v : β) (h : k ≠ k') :
    assocLookup (assocSet l k v) k' = assocLookup l k' := by
  induction l with
  | nil => simp [assocSet, assocLookup, h]
  | cons p rest ih =>
    obtain ⟨k₀, v₀⟩ := p
    by_cases h₀ : k₀ = k
    · subst h₀
      simp [assocSet, assocLookup, h]
    · simp [assocSet, assocLookup, h₀, ih]

theorem assocLookup_assocErase_self {α β : Type} [DecidableEq α]
    (l : List (α × β)) (k : α) : assocLookup (assocErase l k) k = Option.none := by
  induction l with
  | nil => simp [assocErase, assocLookup]
  | cons p rest ih =>
    obtain ⟨k₀, v₀⟩ := p
    by_cases h₀ : k₀ = k
    · simpa [assocErase, assocLookup, h₀] using ih
    · simpa [assocErase, assocLookup, h₀] using ih

theorem assocLookup_assocErase_ne {α β : Type} [DecidableEq α]
    (l : List (α × β)) (k k' : α) (h : k' ≠ k) :
    assocLookup (assocErase l k) k' = assocLookup l k' := by
  induction l with
  | nil => simp [assocErase, assocLookup]
  | cons p rest ih =>
    obtain ⟨k₀, v₀⟩ := p
    by_cases h₀ : k₀ = k
    · subst h₀
      have hne : ¬k₀ = k' := fun hh => h hh.symm
      simpa [assocErase, assocLookup, hne] using ih
    · by_cases h₁ : k₀ = k'
      · subst h₁
        simp [assocErase, List.filter_cons, h₀, assocLookup]
      · simpa [assocErase, List.filter_cons, assocLookup, h₀, h₁] using ih

/-! ### C9: `ProcessExecutor.close` -/

/-- Observable state of a `ProcessExecutor` as far as `close` is concerned:
the `_stopped` flag, the sequence of messages the executor's own
`_Messenger` has sent, how many times the server socket was closed, how many
times the listener thread was joined, and the task registry. -/
structure ExecutorState where
  stopped : Bool
  sentMessages : List String
  socketCloseCount : Nat
  listenerJoinCount : Nat
  tasks : List (Nat × String)
  deriving DecidableEq, Repr

/-- `ProcessExecutor.close` (process.py lines 109-117): return immediately
when `_stopped` is already set; otherwise set the flag, send a `closed`
self-message, close the server socket and join the listener thread. -/
def ProcessExecutor.close (s : ExecutorState) : ExecutorState :=
  if s.stopped then s
  else
    { s with
      stopped := true
      sentMessages := s.sentMessages ++ ["closed"]
      socketCloseCount := s.socketCloseCount + 1
      listenerJoinCount := s.listenerJoinCount + 1 }

/-! ### C7: `_Messenger._send_message` -/

/-- Opaque model of a wrapped exception object travelling in a response
frame.  Such objects are always truthy in Python, so presence
(`Option.isSome`) coincides with the code's `if response_exception:` test. -/
structure ExcVal where
  typeName : String
  message : String
  deriving DecidableEq, Repr

/-- Outcome of one `_Messenger._send_message` call: whether the socket was
closed before control returned, and whether the call returned normally or
raised the response's exception. -/
structure SendOutcome where
  socketClosed : Bool
  result : Except ExcVal Unit
  deriving Repr

/-- `_Messenger._send_message` (process.py lines 302-319), parameterised by
the exception slot of the parent's response frame (`Option.none` models both
an absent `exception` key and a null one — `response.get('exception')`
yields `None` in both cases).  The `finally` block closes the socket on
every path, so `socketClosed` is set whether or not the call raises. -/
def Messenger.sendMessage (responseException : Option ExcVal) : SendOutcome :=
  match responseException with
  | Option.none => { socketClosed := true, result := Except.ok () }
  | some e => { socketClosed := true, result := Except.error e }

/-! ### Tracked changes data model (instrumentation.py) -/

/-- One entry of a per-entity tracked-attributes dict: either a scalar
`_Value` or, for collection-valued attributes, a list of serialized child
rows, each carrying its `_MODEL_CLS` tag alongside the remaining fields. -/
inductive Tracked where
  | scalar : Value → Tracked
  | coll : List (String × List (String × PyVal)) → Tracked
  deriving DecidableEq, Repr

/-- `tracked_changes`: `model_name → entity_id → attribute_name → entry`. -/
abbrev TrackedChanges : Type := List (String × List (Nat × List (String × Tracked)))

/-- Lookup of one attribute entry in a `tracked_changes` structure. -/
def lookupAttr (tc : TrackedChanges) (modelname : String) (id : Nat)
    (key : String) : Option Tracked :=
  (assocLookup tc modelname).bind
    (fun ti => (assocLookup ti id).bind (fun ta => assocLookup ta key))

/-- Lookup of one entity's tracked-attributes dict. -/
def lookupInstance (tc : TrackedChanges) (modelname : String) (id : Nat) :
    Option (List (String × Tracked)) :=
  (assocLookup tc modelname).bind (fun ti => assocLookup ti id)

/-- The `version` optimistic-concurrency column name (`_VERSION_ID_COL`). -/
def VERSION_ID_COL : String := "version"

/-! ### C2: `_Instrumentation._register_set_attribute_listener` -/

/-- The `set` event listener registered by
`_Instrumentation._register_set_attribute_listener` (instrumentation.py
lines 162-175).  `attribute_type` is the registered coercion (`str` for the
instrumented columns), `attrKey` is `instrumented_attribute.key`,
`modelname`/`id` identify the target entity.  The listener stores
`_Value(_STUB, current)` — unconditionally overwriting any existing entry
for that attribute — and returns `current` to the framework
(`retval=True`). -/
def set_attribute_listener (attribute_type : PyVal → PyVal) (attrKey : String)
    (tc : TrackedChanges) (modelname : String) (id : Nat) (value : PyVal) :
    TrackedChanges × PyVal :=
  let tracked_instances := assocGetD tc modelname []
  let tracked_attributes := assocGetD tracked_instances id []
  let current :=
    if value = PyVal.none then PyVal.none else deepcopy (attribute_type value)
  let tracked_attributes' :=
    assocSet tracked_attributes attrKey (Tracked.scalar ⟨PyVal.stub, current⟩)
  let tracked_instances' := assocSet tracked_instances id tracked_attributes'
  (assocSet tc modelname tracked_instances', current)

/-! ### C5: `_Instrumentation._register_instance_listeners` -/

/-- An instrumented persisted entity as the listeners see it: model name,
primary id, the in-memory attribute dict (`target.__dict__` restricted to
the persisted columns), and the optional `version` column
(`hasattr(target, 'version')` is `Option.isSome`). -/
structure Entity where
  modelname : String
  id : Nat
  attrs : List (String × PyVal)
  version : Option Int
  deriving Repr

/-- `getattr(target, name)` on the modelled attribute dict. -/
def Entity.getattr (e : Entity) (name : String) : PyVal :=
  assocGetD e.attrs name PyVal.none

/-- The `current` computed from an `initial` by the load/refresh listener:
`None` stays `None`, anything else is deep-copied after coercion. -/
def coerceInit (ty : PyVal → PyVal) (initial : PyVal) : PyVal :=
  if initial = PyVal.none then PyVal.none else deepcopy (ty initial)

/-- `entry.current` as used by `target.__dict__[name] = entry.current`.
A collection entry can never sit under an instrumented scalar name
(collections are filtered out of `instrumented_attributes` at
instrumentation.py line 110), so the `coll` case is unreachable there; it
is mapped to `None` to keep the function total. -/
def trackedCurrent : Tracked → PyVal
  | Tracked.scalar v => v.current
  | Tracked.coll _ => PyVal.none

/-- The per-attribute loop of the load/refresh listener (instrumentation.py
lines 187-195): for each instrumented attribute name, capture
`_Value(initial, current)` unless the name is already tracked, then
overwrite the in-memory attribute with the tracked entry's `current`. -/
def instance_listener_attrs :
    List (String × (PyVal → PyVal)) → List (String × Tracked) →
    List (String × PyVal) → List (String × Tracked) × List (String × PyVal)
  | [], ta, attrs => (ta, attrs)
  | (name, ty) :: rest, ta, attrs =>
    if containsKey ta name then
      instance_listener_attrs rest ta
        (assocSet attrs name
          (trackedCurrent
            (assocGetD ta name (Tracked.scalar ⟨PyVal.none, PyVal.none⟩))))
    else
      instance_listener_attrs rest
        (assocSet ta name
          (Tracked.scalar ⟨assocGetD attrs name PyVal.none,
                           coerceInit ty (assocGetD attrs name PyVal.none)⟩))
        (assocSet attrs name (coerceInit ty (assocGetD attrs name PyVal.none)))

/-- The entity's tracked-attributes dict inside `tracked_changes`
(`setdefault` of the two enclosing levels reads as `getD` here; the writes
happen when the result is stored back). -/
def entityTracked (tc : TrackedChanges) (target : Entity) :
    List (String × Tracked) :=
  assocGetD (assocGetD tc target.modelname []) target.id []

/-- `tracked_attributes.setdefault(_VERSION_ID_COL, _Value(_STUB, version))`
(instrumentation.py lines 182-186), guarded by `hasattr(target, 'version')`
which is the `Option.isSome` of the modelled version column. -/
def versionSetdefault (ta : List (String × Tracked)) (version : Option Int) :
    List (String × Tracked) :=
  match version with
  | Option.none => ta
  | some v =>
    if containsKey ta VERSION_ID_COL then ta
    else assocSet ta VERSION_ID_COL (Tracked.scalar ⟨PyVal.stub, PyVal.int v⟩)

/-- The `load`/`refresh`/`refresh_flush` listener registered by
`_Instrumentation._register_instance_listeners` (instrumentation.py lines
177-200): pick the entity's tracked-attributes dict (creating the
enclosing levels if absent), `setdefault` the version column's
`_Value(_STUB, version)` when the entity carries one, then run the
per-attribute loop above and store the results back. -/
def instance_listener (instrumented : List (String × (PyVal → PyVal)))
    (tc : TrackedChanges) (target : Entity) : TrackedChanges × Entity :=
  let tracked_instances := assocGetD tc target.modelname []
  let ta₁ := versionSetdefault (entityTracked tc target) target.version
  let r := instance_listener_attrs instrumented ta₁ target.attrs
  (assocSet tc target.modelname (assocSet tracked_instances target.id r.1),
   { target with attrs := r.2 })

theorem versionSetdefault_lookup_ne (ta : List (String × Tracked))
    (version : Option Int) (name : String) (h : name ≠ VERSION_ID_COL) :
    assocLookup (versionSetdefault ta version) name = assocLookup ta name := by
  cases version with
  | none => rfl
  | some v =>
    by_cases hc : containsKey ta VERSION_ID_COL
    · simp [versionSetdefault, hc]
    · simp [versionSetdefault, hc, assocLookup_assocSet_ne _ _ _ _ (fun hh => h hh.symm)]

theorem instance_listener_tc_lookup (instrumented : List (String × (PyVal → PyVal)))
    (tc : TrackedChanges) (target : Entity) (name : String) :
    lookupAttr (instance_listener instrumented tc target).1
        target.modelname target.id name =
      assocLookup
        (instance_listener_attrs instrumented
          (versionSetdefault (entityTracked tc target) target.version)
          target.attrs).1 name := by
  simp [instance_listener, lookupAttr, assocLookup_assocSet_self]

theorem containsKey_eq_of_lookup_eq {α β : Type} [DecidableEq α]
    {l l' : List (α × β)} {k : α} (h : assocLookup l k = assocLookup l' k) :
    containsKey l k = containsKey l' k := by
  simp [containsKey, h]

/-- Frame lemma: `instance_listener_attrs` leaves every name outside the
instrumented list untouched, in both the tracked dict and the entity. -/
theorem instance_listener_attrs_frame
    (instrumented : List (String × (PyVal → PyVal)))
    (ta : List (String × Tracked)) (attrs : List (String × PyVal))
    (name : String) (hname : name ∉ instrumented.map Prod.fst) :
    assocLookup (instance_listener_attrs instrumented ta attrs).1 name =
      assocLookup ta name ∧
    assocLookup (instance_listener_attrs instrumented ta attrs).2 name =
      assocLookup attrs name := by
  induction instrumented generalizing ta attrs with
  | nil => simp [instance_listener_attrs]
  | cons hd rest ih =>
    obtain ⟨n, ty⟩ := hd
    have hne : n ≠ name := by
      intro h
      exact hname (by simp [h])
    have hrest : name ∉ rest.map Prod.fst := by
      intro h
      exact hname (by simp [h])
    by_cases hc : containsKey ta n
    · have := ih ta
        (assocSet attrs n
          (trackedCurrent
            (assocGetD ta n (Tracked.scalar ⟨PyVal.none, PyVal.none⟩)))) hrest
      refine ⟨?_, ?_⟩
      · simpa [instance_listener_attrs, hc] using this.1
      · rw [show (instance_listener_attrs ((n, ty) :: rest) ta attrs).2 =
          (instance_listener_attrs rest ta
            (assocSet attrs n
              (trackedCurrent
                (assocGetD ta n (Tracked.scalar ⟨PyVal.none, PyVal.none⟩))))).2
          from by simp [instance_listener_attrs, hc]]
        rw [this.2, assocLookup_assocSet_ne _ _ _ _ hne]
    · have := ih
        (assocSet ta n
          (Tracked.scalar ⟨assocGetD attrs n PyVal.none,
                           coerceInit ty (assocGetD attrs n PyVal.none)⟩))
        (assocSet attrs n (coerceInit ty (assocGetD attrs n PyVal.none))) hrest
      refine ⟨?_, ?_⟩
      · rw [show (instance_listener_attrs ((n, ty) :: rest) ta attrs).1 =
          (instance_listener_attrs rest
            (assocSet ta n
              (Tracked.scalar ⟨assocGetD attrs n PyVal.none,
                               coerceInit ty (assocGetD attrs n PyVal.none)⟩))
            (assocSet attrs n (coerceInit ty (assocGetD attrs n PyVal.none)))).1
          from by simp [instance_listener_attrs, hc]]
        rw [this.1, assocLookup_assocSet_ne _ _ _ _ hne]
      · rw [show (instance_listener_attrs ((n, ty) :: rest) ta attrs).2 =
          (instance_listener_attrs rest
            (assocSet ta n
              (Tracked.scalar ⟨assocGetD attrs n PyVal.none,
                               coerceInit ty (assocGetD attrs n PyVal.none)⟩))
            (assocSet attrs n (coerceInit ty (assocGetD attrs n PyVal.none)))).2
          from by simp [instance_listener_attrs, hc]]
        rw [this.2, assocLookup_assocSet_ne _ _ _ _ hne]

/-- Main lemma about the per-attribute loop, for every instrumented name
(instrumented names assumed distinct, as Python dict keys are): an
already-tracked name keeps its entry, a fresh name gets
`_Value(initial, coerceInit initial)` captured from the entity, and the
entity's in-memory attribute ends up equal to the tracked entry's
`current`. -/
theorem instance_listener_attrs_spec
    (instrumented : List (String × (PyVal → PyVal)))
    (ta : List (String × Tracked)) (attrs : List (String × PyVal))
    (name : String) (ty : PyVal → PyVal)
    (hnd : (instrumented.map Prod.fst).Nodup)
    (hmem : (name, ty) ∈ instrumented) :
    (containsKey ta name = true →
      assocLookup (instance_listener_attrs instrumented ta attrs).1 name =
        assocLookup ta name) ∧
    (containsKey ta name = false →
      assocLookup (instance_listener_attrs instrumented ta attrs).1 name =
        some (Tracked.scalar
          ⟨assocGetD attrs name PyVal.none,
           coerceInit ty (assocGetD attrs name PyVal.none)⟩)) ∧
    (∃ tr,
      assocLookup (instance_listener_attrs instrumented ta attrs).1 name =
        some tr ∧
      assocLookup (instance_listener_attrs instrumented ta attrs).2 name =
        some (trackedCurrent tr)) := by
  induction instrumented generalizing ta attrs with
  | nil => cases hmem
  | cons hd rest ih =>
    obtain ⟨n, ty₀⟩ := hd
    have hnd' : (n :: rest.map Prod.fst).Nodup := by simpa using hnd
    have hndrest : (rest.map Prod.fst).Nodup := (List.nodup_cons.mp hnd').2
    have hnotin : n ∉ rest.map Prod.fst := (List.nodup_cons.mp hnd').1
    rcases List.mem_cons.mp hmem with heq | hmemrest
    · -- the head entry is the one we reason about
      injection heq.symm with h1 h2
      subst h1
      subst h2
      by_cases hc : containsKey ta n
      · -- already tracked: dict untouched at n, entity set to entry.current
        have hframe := instance_listener_attrs_frame rest ta
          (assocSet attrs n
            (trackedCurrent
              (assocGetD ta n (Tracked.scalar ⟨PyVal.none, PyVal.none⟩)))) n hnotin
        obtain ⟨tr, htr⟩ : ∃ tr, assocLookup ta n = some tr := by
          cases h : assocLookup ta n with
          | none => simp [containsKey, h] at hc
          | some tr => exact ⟨tr, rfl⟩
        refine ⟨fun _ => ?_, fun hfalse => ?_, ?_⟩
        · simpa [instance_listener_attrs, hc] using hframe.1
        · rw [hc] at hfalse
          cases hfalse
        · refine ⟨tr, ?_, ?_⟩
          · rw [show assocLookup
                (instance_listener_attrs ((n, ty₀) :: rest) ta attrs).1 n =
                assocLookup ta n from by
                simpa [instance_listener_attrs, hc] using hframe.1]
            exact htr
          · rw [show (instance_listener_attrs ((n, ty₀) :: rest) ta attrs).2 =
              (instance_listener_attrs rest ta
                (assocSet attrs n
                  (trackedCurrent
                    (assocGetD ta n
                      (Tracked.scalar ⟨PyVal.none, PyVal.none⟩))))).2
              from by simp [instance_listener_attrs, hc]]
            rw [hframe.2, assocLookup_assocSet_self]
            simp [assocGetD, htr]
      · -- fresh: entry captured from the entity, entity set to its current
        have hframe := instance_listener_attrs_frame rest
          (assocSet ta n
            (Tracked.scalar ⟨assocGetD attrs n PyVal.none,
                             coerceInit ty₀ (assocGetD attrs n PyVal.none)⟩))
          (assocSet attrs n (coerceInit ty₀ (assocGetD attrs n PyVal.none)))
          n hnotin
        have hta1 : assocLookup
            (instance_listener_attrs ((n, ty₀) :: rest) ta attrs).1 n =
            some (Tracked.scalar
              ⟨assocGetD attrs n PyVal.none,
               coerceInit ty₀ (assocGetD attrs n PyVal.none)⟩) := by
          rw [show (instance_listener_attrs ((n, ty₀) :: rest) ta attrs).1 =
            (instance_listener_attrs rest
              (assocSet ta n
                (Tracked.scalar ⟨assocGetD attrs n PyVal.none,
                                 coerceInit ty₀ (assocGetD attrs n PyVal.none)⟩))
              (assocSet attrs n
                (coerceInit ty₀ (assocGetD attrs n PyVal.none)))).1
            from by simp [instance_listener_attrs, hc]]
          rw [hframe.1, assocLookup_assocSet_self]
        refine ⟨fun htrue => ?_, fun _ => hta1, ?_⟩
        · rw [htrue] at hc
          cases hc rfl
        · refine ⟨Tracked.scalar
            ⟨assocGetD attrs n PyVal.none,
             coerceInit ty₀ (assocGetD attrs n PyVal.none)⟩, hta1, ?_⟩
          rw [show (instance_listener_attrs ((n, ty₀) :: rest) ta attrs).2 =
            (instance_listener_attrs rest
              (assocSet ta n
                (Tracked.scalar ⟨assocGetD attrs n PyVal.none,
                                 coerceInit ty₀ (assocGetD attrs n PyVal.none)⟩))
              (assocSet attrs n
                (coerceInit ty₀ (assocGetD attrs n PyVal.none)))).2
            from by simp [instance_listener_attrs, hc]]
          rw [hframe.2, assocLookup_assocSet_self]
          simp [trackedCurrent]
    · -- the entry sits in the tail; the head step preserves its name
      have hne : n ≠ name := by
        intro h
        subst h
        exact hnotin (List.mem_map.mpr ⟨(n, ty), hmemrest, rfl⟩)
      by_cases hc : containsKey ta n
      · have hih := ih ta
          (assocSet attrs n
            (trackedCurrent
              (assocGetD ta n (Tracked.scalar ⟨PyVal.none, PyVal.none⟩))))
          hndrest hmemrest
        have hattrs : assocGetD
            (assocSet attrs n
              (trackedCurrent
                (assocGetD ta n (Tracked.scalar ⟨PyVal.none, PyVal.none⟩))))
            name PyVal.none = assocGetD attrs name PyVal.none := by
          simp [assocGetD, assocLookup_assocSet_ne _ _ _ _ hne]
        rw [show instance_listener_attrs ((n, ty₀) :: rest) ta attrs =
          instance_listener_attrs rest ta
            (assocSet attrs n
              (trackedCurrent
                (assocGetD ta n (Tracked.scalar ⟨PyVal.none, PyVal.none⟩))))
          from by simp [instance_listener_attrs, hc]]
        rw [hattrs] at hih
        exact hih
      · have hlook : assocLookup
            (assocSet ta n
              (Tracked.scalar ⟨assocGetD attrs n PyVal.none,
                               coerceInit ty₀ (assocGetD attrs n PyVal.none)⟩))
            name = assocLookup ta name :=
          assocLookup_assocSet_ne _ _ _ _ hne
        have hih := ih
          (assocSet ta n
            (Tracked.scalar ⟨assocGetD attrs n PyVal.none,
                             coerceInit ty₀ (assocGetD attrs n PyVal.none)⟩))
          (assocSet attrs n (coerceInit ty₀ (assocGetD attrs n PyVal.none)))
          hndrest hmemrest
        have hck := containsKey_eq_of_lookup_eq hlook
        have hattrs : assocGetD
            (assocSet attrs n (coerceInit ty₀ (assocGetD attrs n PyVal.none)))
            name PyVal.none = assocGetD attrs name PyVal.none := by
          simp [assocGetD, assocLookup_assocSet_ne _ _ _ _ hne]
        rw [show instance_listener_attrs ((n, ty₀) :: rest) ta attrs =
          instance_listener_attrs rest
            (assocSet ta n
              (Tracked.scalar ⟨assocGetD attrs n PyVal.none,
                               coerceInit ty₀ (assocGetD attrs n PyVal.none)⟩))
            (assocSet attrs n (coerceInit ty₀ (assocGetD attrs n PyVal.none)))
          from by simp [instance_listener_attrs, hc]]
        rw [hck, hattrs] at hih
        refine ⟨fun h => ?_, hih.2.1, hih.2.2⟩
        rw [hih.1 h, hlook]

/-! ### C4: `_validate_version_id` -/

/-- Error message raised on a version conflict (the source formats the
committed and object values into the message; the model keeps it fixed). -/
def versionConflictMessage : String := "Version conflict: committed and object version differ"

/-- Outcome of `_validate_version_id`: whether `mapi._session.rollback()`
ran, and the raised `StorageError` message when one was raised.  In the
source the rollback statement executes immediately before the raise, so
`rolledBack = true` exactly on the raising path. -/
structure VersionCheck where
  rolledBack : Bool
  raised : Option String
  deriving DecidableEq, Repr

/-- `_validate_version_id` (instrumentation.py lines 307-322), parameterised
by `sqlalchemy.inspect(instance).committed_state.get('version')` (absent key
modelled as `Option.none`) and by `getattr(instance, 'version')`.  The
source guard is `if version_id and object_version != version_id`; Python
truthiness makes both `None` and `0` falsy, which the match and the `v ≠ 0`
conjunct reproduce. -/
def validate_version_id (committedVersion : Option Int) (objectVersion : Int) :
    VersionCheck :=
  match committedVersion with
  | Option.none => { rolledBack := false, raised := Option.none }
  | some v =>
    if v ≠ 0 ∧ objectVersion ≠ v then
      { rolledBack := true, raised := some versionConflictMessage }
    else
      { rolledBack := false, raised := Option.none }

/-! ### C6: `ProcessExecutor._handle_task_succeeded_request` -/

/-- Observable listener-side events, in the order they happen while one
`succeeded` request is handled. -/
inductive ListenerEvent where
  | removedTask (taskId : Nat)
  | appliedDiff (taskId : Nat)
  | taskFailed (taskId : Nat) (message : String)
  | taskSucceeded (taskId : Nat)
  deriving DecidableEq, Repr

/-- Constant appended to the apply error's message (process.py lines 58-59). -/
def UPDATE_TRACKED_CHANGES_FAILED_STR : String :=
  "Some changes failed writing to storage. For more info refer to the log."

/-- `ProcessExecutor._handle_task_succeeded_request` (process.py lines
199-207) together with `_remove_task` (lines 136-137).  The registry is the
`_tasks` dict; `applyOutcome` is the outcome of
`self._apply_tracked_changes(task, request)`.  `_remove_task` uses
`dict.pop` with no default, so an unknown task id raises `KeyError` before
anything else happens.  The returned event list is in execution order:
removal strictly precedes the apply attempt, which precedes the terminal
marking. -/
def handle_task_succeeded_request (tasks : List (Nat × String)) (taskId : Nat)
    (applyOutcome : Except String Unit) :
    Except String (List (Nat × String) × List ListenerEvent) :=
  if containsKey tasks taskId then
    Except.ok (assocErase tasks taskId,
      ListenerEvent.removedTask taskId :: ListenerEvent.appliedDiff taskId ::
        (match applyOutcome with
         | Except.error e =>
           [ListenerEvent.taskFailed taskId (e ++ UPDATE_TRACKED_CHANGES_FAILED_STR)]
         | Except.ok _ => [ListenerEvent.taskSucceeded taskId]))
  else
    Except.error "KeyError"

/-! ### C8: `_recv_bytes` and `_recv_message` -/

/-- `_INT_SIZE = struct.calcsize('I')` on the platforms the executor runs
on: 4 bytes. -/
def INT_SIZE : Nat := 4

/-- `_recv_bytes(connection, count)` (process.py lines 259-268).  The
stream socket is modelled as a list of byte segments: one `recv(count)`
call returns up to `count` bytes from the head segment (a stream read never
spans a kernel-buffer boundary), the unread remainder of the segment stays
in front, and an exhausted list — or an empty segment, the closed-socket
marker — makes `recv` return no bytes, which the loop treats as EOF and
returns what was accumulated.  The second component is the unread rest of
the stream. -/
def recv_bytes : List (List Nat) → Nat → List Nat × List (List Nat)
  | conn, 0 => ([], conn)
  | [], _ + 1 => ([], [])
  | [] :: rest, _ + 1 => ([], [] :: rest)
  | (b :: bs) :: rest, count + 1 =>
    let r := b :: bs.take count
    let dropped := bs.drop count
    let conn' := if dropped.isEmpty then rest else dropped :: rest
    let next := recv_bytes conn' (count + 1 - r.length)
    (r ++ next.1, next.2)
termination_by _ count => count
decreasing_by
  simp only [List.length_cons]
  omega

/-- `struct.unpack('I', ...)` on exactly 4 little-endian bytes (struct 'I'
uses native byte order; the executor targets little-endian hosts).  The
source raises on any other input size; the claim only concerns the
4-byte case, so other shapes map to 0. -/
def unpackU32 : List Nat → Nat
  | [b0, b1, b2, b3] => b0 + 256 * b1 + 65536 * b2 + 16777216 * b3
  | _ => 0

/-- `_recv_message(connection)` (process.py lines 249-256) up to the
`jsonpickle.loads` deserialization: read `_INT_SIZE` bytes, unpack the
length, then read that many payload bytes.  Returns (header, payload). -/
def recv_message (conn : List (List Nat)) : List Nat × List Nat :=
  let hdr := recv_bytes conn INT_SIZE
  let len := unpackU32 hdr.1
  (hdr.1, (recv_bytes hdr.2 len).1)

/-- The receive loop, on a stream of nonempty segments, reads the first
`count` bytes of the byte stream (all of it when the stream is shorter),
leaves exactly the rest unread, and never leaves an empty segment. -/
theorem recv_bytes_spec : ∀ (count : Nat) (conn : List (List Nat)),
    (∀ s ∈ conn, s ≠ []) →
    (recv_bytes conn count).1 = conn.flatten.take count ∧
    (recv_bytes conn count).2.flatten = conn.flatten.drop count ∧
    (∀ s ∈ (recv_bytes conn count).2, s ≠ []) := by
  intro count
  induction count using Nat.strong_induction_on with
  | _ count ih =>
    intro conn h
    match count, conn with
    | 0, conn =>
      refine ⟨by simp [recv_bytes], by simp [recv_bytes], ?_⟩
      simpa [recv_bytes] using h
    | n + 1, [] =>
      refine ⟨by simp [recv_bytes], by simp [recv_bytes], by simp [recv_bytes]⟩
    | n + 1, [] :: rest =>
      exact absurd rfl (h [] (by simp))
    | n + 1, (b :: bs) :: rest =>
      have hseg : ∀ s ∈ (if (bs.drop n).isEmpty then rest
          else bs.drop n :: rest), s ≠ [] := by
        intro s hs
        by_cases hd : (bs.drop n).isEmpty
        · rw [if_pos hd] at hs
          exact h s (List.mem_cons_of_mem _ hs)
        · rw [if_neg hd] at hs
          rcases List.mem_cons.mp hs with heq | hmem
          · subst heq
            exact fun he => hd (by simp [he])
          · exact h s (List.mem_cons_of_mem _ hmem)
      have harg : n + 1 - (b :: bs.take n).length < n + 1 := by
        simp only [List.length_cons]
        omega
      have ihspec := ih _ harg _ hseg
      have hhead : (b :: bs.take n) ++ bs.drop n = b :: bs := by
        simp [List.take_append_drop]
      have hconn' : (if (bs.drop n).isEmpty then rest
          else bs.drop n :: rest).flatten = bs.drop n ++ rest.flatten := by
        by_cases hd : (bs.drop n).isEmpty
        · rw [if_pos hd]
          rw [List.isEmpty_iff] at hd
          simp [hd]
        · rw [if_neg hd]
          simp
      have hrlen : (b :: bs.take n).length ≤ n + 1 := by
        simp only [List.length_cons, List.length_take]
        omega
      have hflat : ((b :: bs) :: rest).flatten =
          (b :: bs.take n) ++
            (if (bs.drop n).isEmpty then rest
             else bs.drop n :: rest).flatten := by
        rw [List.flatten_cons, hconn', ← List.append_assoc, hhead]
      refine ⟨?_, ?_, ?_⟩
      · rw [show (recv_bytes ((b :: bs) :: rest) (n + 1)).1 =
          (b :: bs.take n) ++
            (recv_bytes (if (bs.drop n).isEmpty then rest
                else bs.drop n :: rest)
              (n + 1 - (b :: bs.take n).length)).1 from by simp [recv_bytes]]
        rw [hflat, List.take_append_eq_append_take,
          List.take_of_length_le hrlen, ihspec.1]
      · rw [show (recv_bytes ((b :: bs) :: rest) (n + 1)).2 =
          (recv_bytes (if (bs.drop n).isEmpty then rest
              else bs.drop n :: rest)
            (n + 1 - (b :: bs.take n).length)).2 from by simp [recv_bytes]]
        rw [hflat, List.drop_append_eq_append_drop,
          List.drop_eq_nil_of_le hrlen, ihspec.2.1]
        simp
      · rw [show (recv_bytes ((b :: bs) :: rest) (n + 1)).2 =
          (recv_bytes (if (bs.drop n).isEmpty then rest
              else bs.drop n :: rest)
            (n + 1 - (b :: bs.take n).length)).2 from by simp [recv_bytes]]
        exact ihspec.2.2

/-! ### C10: `_Instrumentation.clear` and the patched session refresh -/

/-- The mutable maps owned by an `_Instrumentation` context:
`tracked_changes`, `new_instances_as_dict`
(`model_name → temp_id → field map`) and `_instances_to_expunge` (opaque
references to session-attached new instances). -/
structure InstrState where
  tracked_changes : TrackedChanges
  new_instances_as_dict : List (String × List (String × List (String × PyVal)))
  instances_to_expunge : List Nat

/-- `_Instrumentation.clear` (instrumentation.py lines 202-211): with a
target, `setdefault` the target model's bucket and pop the target's id from
it; without one, clear the whole `tracked_changes` dict.  In both branches
`new_instances_as_dict` is cleared and `_instances_to_expunge` replaced by
a fresh empty list, unconditionally. -/
def Instrumentation.clear (st : InstrState) (target : Option (String × Nat)) :
    InstrState :=
  match target with
  | some (modelname, id) =>
    { tracked_changes :=
        assocSet st.tracked_changes modelname
          (assocErase (assocGetD st.tracked_changes modelname []) id)
      new_instances_as_dict := []
      instances_to_expunge := [] }
  | Option.none =>
    { tracked_changes := []
      new_instances_as_dict := []
      instances_to_expunge := [] }

/-- `patched_refresh` installed by `_patch_ctx` (process.py lines 332-334):
`instrument.clear(target)` followed by the original `session.refresh`.  The
underlying refresh reloads the entity and fires the `refresh` event, whose
only effect on the instrumentation state is the instance listener acting on
`tracked_changes`; `target` here stands for the reloaded entity. -/
def patched_refresh (instrumented : List (String × (PyVal → PyVal)))
    (st : InstrState) (target : Entity) : InstrState × Entity :=
  let st₁ := Instrumentation.clear st (some (target.modelname, target.id))
  let r := instance_listener instrumented st₁.tracked_changes target
  ({ st₁ with tracked_changes := r.1 }, r.2)

/-! ### C1 and C3: `apply_tracked_changes` (instrumentation.py lines 248-304) -/

/-- Observable storage-layer effects of the parent-side diff applier, in
execution order: `mapi.put` of a freshly constructed new instance,
`mapi.get` of an entity, `setattr` of a scalar attribute, keyed insertion
of a collection child (`getattr(instance, attr)[new] = new`), the version
validation, and `mapi.update`. -/
inductive ApplyEvent where
  | putNew (mapiName : String) (tmpId : String) (fields : List (String × PyVal))
  | fetch (mapiName : String) (instanceId : Nat)
  | setAttr (mapiName : String) (instanceId : Nat) (attr : String) (v : PyVal)
  | appendColl (mapiName : String) (instanceId : Nat) (attr : String)
      (modelCls : String) (fields : List (String × PyVal))
  | validate (mapiName : String) (instanceId : Nat)
  | update (mapiName : String) (instanceId : Nat)
  deriving DecidableEq, Repr

/-- A `new_instances` slot: the applier's inner loop replaces the keyword
dict with the constructed instance (`new_instance[tmp_id] = instance`), so
a slot is either still a field map or an already-constructed instance. -/
inductive NewSlot where
  | kwargs (fields : List (String × PyVal))
  | resolvedInstance
  deriving DecidableEq, Repr

/-- `new_instances`: `model_name → temp_id → slot`. -/
abbrev NewInstances : Type := List (String × List (String × NewSlot))

/-- The innermost new-instance loop for one model (instrumentation.py lines
266-270): construct from the field map, `put`, and overwrite the slot with
the constructed instance.  A slot that already holds an instance — which
happens on the second outer `tracked_changes` iteration — makes
`mapi.model_cls(**slot)` raise `TypeError`, since a model instance is not a
mapping. -/
def putNewInstances (mapiName : String) :
    List (String × NewSlot) →
    Except String (List ApplyEvent × List (String × NewSlot))
  | [] => Except.ok ([], [])
  | (tmpId, NewSlot.kwargs fields) :: rest =>
    match putNewInstances mapiName rest with
    | Except.error e => Except.error e
    | Except.ok r =>
      Except.ok (ApplyEvent.putNew mapiName tmpId fields :: r.1,
        (tmpId, NewSlot.resolvedInstance) :: r.2)
  | (_, NewSlot.resolvedInstance) :: _ =>
    Except.error "TypeError: argument after ** must be a mapping"

/-- The inner loop over all of `new_instances` (instrumentation.py lines
263-270).  It returns the emitted events, the mutated map, and the final
value of the loop variables `mapi_name`/`mapi` — which *shadow* the outer
loop's variables; `Option.none` means the loop body never ran and the outer
variables keep their values. -/
def applyNewInstances :
    NewInstances →
    Except String (List ApplyEvent × NewInstances × Option String)
  | [] => Except.ok ([], [], Option.none)
  | (mapiName, slots) :: rest =>
    match putNewInstances mapiName slots with
    | Except.error e => Except.error e
    | Except.ok r =>
      match applyNewInstances rest with
      | Except.error e => Except.error e
      | Except.ok rr =>
        Except.ok (r.1 ++ rr.1, (mapiName, r.2) :: rr.2.1,
          some (rr.2.2.getD mapiName))

/-- The per-attribute loop (instrumentation.py lines 275-286).
`instance = instance or mapi.get(instance_id)` runs on every iteration, so
the fetch happens at the first attribute regardless of the entry's kind; a
list entry appends each child row, a scalar `_Value` assigns `current`
exactly when `initial != current`. -/
def processAttrs (mapiName : String) (instanceId : Nat) :
    Bool → List (String × Tracked) → List ApplyEvent
  | _, [] => []
  | fetched, (attrName, value) :: rest =>
    (if fetched then [] else [ApplyEvent.fetch mapiName instanceId]) ++
    (match value with
     | Tracked.coll rows =>
       rows.map (fun row =>
         ApplyEvent.appendColl mapiName instanceId attrName row.1 row.2)
     | Tracked.scalar v =>
       if v.initial ≠ v.current then
         [ApplyEvent.setAttr mapiName instanceId attrName v.current]
       else []) ++
    processAttrs mapiName instanceId true rest

/-- One `(instance_id, tracked_attributes)` entry (instrumentation.py lines
272-289): the attribute loop, then — only when an attribute iteration ran,
i.e. `instance` is non-None — the version validation and `mapi.update`. -/
def processInstance (mapiName : String) (instanceId : Nat)
    (attrs : List (String × Tracked)) : List ApplyEvent :=
  processAttrs mapiName instanceId false attrs ++
    (if attrs.isEmpty then []
     else [ApplyEvent.validate mapiName instanceId,
           ApplyEvent.update mapiName instanceId])

/-- The loop over one model's tracked instances. -/
def processInstances (mapiName : String) :
    List (Nat × List (String × Tracked)) → List ApplyEvent
  | [] => []
  | (instanceId, attrs) :: rest =>
    processInstance mapiName instanceId attrs ++ processInstances mapiName rest

/-- `apply_tracked_changes` (instrumentation.py lines 248-304), as the list
of storage effects it performs.  The source nests the `new_instances` loop
*inside* the loop over `tracked_changes.items()`, reusing (and thereby
shadowing) the `mapi_name`/`mapi` loop variables; this embedding reproduces
that structure: per outer entry the whole `new_instances` map is iterated
(its slots mutated in place), and the instance processing then runs under
the shadowed mapi — the last new-instances model when there was one. -/
def apply_tracked_changes :
    TrackedChanges → NewInstances → Except String (List ApplyEvent)
  | [], _ => Except.ok []
  | (mapiName, instances) :: rest, ni =>
    match applyNewInstances ni with
    | Except.error e => Except.error e
    | Except.ok r =>
      let effName := r.2.2.getD mapiName
      match apply_tracked_changes rest r.2.1 with
      | Except.error e => Except.error e
      | Except.ok evts₂ =>
        Except.ok (r.1 ++ processInstances effName instances ++ evts₂)

/-- Events of a successful apply; a raising apply contributes none here
(its partial effects are what C1's divergence is about, not needed for
C3). -/
def okEvents : Except String (List ApplyEvent) → List ApplyEvent
  | Except.ok evts => evts
  | Except.error _ => []

/-- Assignment events emitted by the attribute loop: a `setattr` on
attribute `a` occurs exactly for a scalar entry at `a` whose `initial` and
`current` differ, and it writes that entry's `current`. -/
theorem setAttr_mem_processAttrs (m : String) (i : Nat) (a : String) (c : PyVal)
    (f : Bool) (attrs : List (String × Tracked)) :
    ApplyEvent.setAttr m i a c ∈ processAttrs m i f attrs ↔
      ∃ v : Value, (a, Tracked.scalar v) ∈ attrs ∧ v.initial ≠ v.current ∧
        v.current = c := by
  induction attrs generalizing f with
  | nil => simp [processAttrs]
  | cons hd rest ih =>
    obtain ⟨attrName, value⟩ := hd
    constructor
    · intro h
      simp only [processAttrs, List.mem_append] at h
      rcases h with (h | h) | h
      · cases f
        · simp at h
        · simp at h
      · cases value with
        | coll rows =>
          have h' : ApplyEvent.setAttr m i a c ∈
              rows.map (fun row =>
                ApplyEvent.appendColl m i attrName row.1 row.2) := h
          simp only [List.mem_map] at h'
          obtain ⟨row, _, heq⟩ := h'
          cases heq
        | scalar v =>
          have h' : ApplyEvent.setAttr m i a c ∈
              (if v.initial ≠ v.current then
                [ApplyEvent.setAttr m i attrName v.current] else []) := h
          by_cases hne : v.initial ≠ v.current
          · rw [if_pos hne] at h'
            simp only [List.mem_singleton] at h'
            injection h' with h1 h2 h3 h4
            exact ⟨v, by simp [h3], hne, h4.symm⟩
          · rw [if_neg hne] at h'
            cases h'
      · obtain ⟨v, hv, hne, hc⟩ := (ih true).mp h
        exact ⟨v, List.mem_cons_of_mem _ hv, hne, hc⟩
    · rintro ⟨v, hv, hne, hc⟩
      simp only [processAttrs, List.mem_append]
      rcases List.mem_cons.mp hv with heq | hmem
      · injection heq with h1 h2
        refine Or.inl (Or.inr ?_)
        subst h2
        show ApplyEvent.setAttr m i a c ∈
          (if v.initial ≠ v.current then
            [ApplyEvent.setAttr m i attrName v.current] else [])
        rw [if_pos hne]
        simp [h1, hc]
      · exact Or.inr ((ih true).mpr ⟨v, hmem, hne, hc⟩)

/-- With a single tracked model, a single entity and no new instances, the
applier succeeds and its events are exactly that entity's processing. -/
theorem apply_tracked_changes_single (m : String) (i : Nat)
    (attrs : List (String × Tracked)) :
    apply_tracked_changes [(m, [(i, attrs)])] [] =
      Except.ok (processInstance m i attrs) := by
  simp [apply_tracked_changes, applyNewInstances, processInstances]

/-- Lifting the attribute-loop characterisation to a full apply call on one
entity: the validation and update events the loop epilogue adds are not
assignments. -/
theorem setAttr_mem_apply_single (m : String) (i : Nat) (a : String)
    (c : PyVal) (attrs : List (String × Tracked)) :
    ApplyEvent.setAttr m i a c ∈
        okEvents (apply_tracked_changes [(m, [(i, attrs)])] []) ↔
      ∃ v : Value, (a, Tracked.scalar v) ∈ attrs ∧ v.initial ≠ v.current ∧
        v.current = c := by
  rw [apply_tracked_changes_single]
  show ApplyEvent.setAttr m i a c ∈ processInstance m i attrs ↔ _
  rw [← setAttr_mem_processAttrs m i a c false attrs]
  simp only [processInstance, List.mem_append]
  constructor
  · rintro (h | h)
    · exact h
    · by_cases he : attrs.isEmpty
      · rw [if_pos he] at h
        cases h
      · rw [if_neg he] at h
        simp at h
  · exact Or.inl

/-! ### Claim theorems (first batch) -/

/-- C4: for an entity carrying a version column whose committed version
state was captured (present and truthy, i.e. nonzero — versions are
positive counters), a difference between the committed version and the
version captured at load time makes `_validate_version_id` roll the session
back and raise the version-conflict `StorageError`, while equality raises
nothing and performs no rollback, letting the update proceed. -/
theorem C4_version_conflict (c obj : Int) (hc : c ≠ 0) :
    (obj ≠ c → validate_version_id (some c) obj =
      { rolledBack := true, raised := some versionConflictMessage }) ∧
    (obj = c → validate_version_id (some c) obj =
      { rolledBack := false, raised := Option.none }) := by
  constructor
  · intro hobj
    simp [validate_version_id, hc, hobj]
  · intro hobj
    simp [validate_version_id, hobj]

/-- Witness for C4 at committed version 2 against load-time versions 3
(conflict) and 2 (no conflict). -/
theorem C4_version_conflict_witness :
    validate_version_id (some 2) 3 =
      { rolledBack := true, raised := some versionConflictMessage } ∧
    validate_version_id (some 2) 2 =
      { rolledBack := false, raised := Option.none } :=
  ⟨(C4_version_conflict 2 3 (by decide)).1 (by decide),
   (C4_version_conflict 2 2 (by decide)).2 rfl⟩

/-- C6: handling a `succeeded` message for a registered task removes the
task from the registry before the diff is applied (the removal event
strictly precedes the apply event in the execution trace); an apply failure
marks the task failed with the apply exception, an apply success marks it
succeeded; and in both outcomes the task is absent from the registry
afterwards. -/
theorem C6_succeeded_handler (tasks : List (Nat × String)) (taskId : Nat)
    (applyOutcome : Except String Unit) (h : containsKey tasks taskId = true) :
    (∀ e, applyOutcome = Except.error e →
      handle_task_succeeded_request tasks taskId applyOutcome =
        Except.ok (assocErase tasks taskId,
          [ListenerEvent.removedTask taskId, ListenerEvent.appliedDiff taskId,
           ListenerEvent.taskFailed taskId (e ++ UPDATE_TRACKED_CHANGES_FAILED_STR)])) ∧
    (applyOutcome = Except.ok () →
      handle_task_succeeded_request tasks taskId applyOutcome =
        Except.ok (assocErase tasks taskId,
          [ListenerEvent.removedTask taskId, ListenerEvent.appliedDiff taskId,
           ListenerEvent.taskSucceeded taskId])) ∧
    assocLookup (assocErase tasks taskId) taskId = Option.none := by
  refine ⟨?_, ?_, assocLookup_assocErase_self tasks taskId⟩
  · intro e he
    simp [handle_task_succeeded_request, h, he]
  · intro he
    simp [handle_task_succeeded_request, h, he]

/-- Witness for C6 on the one-task registry, for both a failing and a
succeeding apply. -/
theorem C6_succeeded_handler_witness :
    handle_task_succeeded_request [(1, "task")] 1 (Except.error "boom") =
      Except.ok ([],
        [ListenerEvent.removedTask 1, ListenerEvent.appliedDiff 1,
         ListenerEvent.taskFailed 1 ("boom" ++ UPDATE_TRACKED_CHANGES_FAILED_STR)]) ∧
    handle_task_succeeded_request [(1, "task")] 1 (Except.ok ()) =
      Except.ok ([],
        [ListenerEvent.removedTask 1, ListenerEvent.appliedDiff 1,
         ListenerEvent.taskSucceeded 1]) := by
  have h1 := (C6_succeeded_handler [(1, "task")] 1 (Except.error "boom") (by decide)).1
    "boom" rfl
  have h2 := (C6_succeeded_handler [(1, "task")] 1 (Except.ok ()) (by decide)).2.1 rfl
  have herase : assocErase [(1, "task")] 1 = ([] : List (Nat × String)) := by decide
  exact ⟨by rw [h1, herase], by rw [h2, herase]⟩

/-- C9: `close()` is idempotent — the second call observes the stopped flag
and returns immediately, so it sends no further `closed` message, closes no
socket and joins no thread, and the state after two calls equals the state
after one. -/
theorem C9_close_idempotent (s : ExecutorState) :
    ProcessExecutor.close (ProcessExecutor.close s) = ProcessExecutor.close s ∧
    (ProcessExecutor.close s).stopped = true := by
  by_cases h : s.stopped
  · constructor
    · simp [ProcessExecutor.close, h]
    · simp [ProcessExecutor.close, h]
  · simp [ProcessExecutor.close, h]

/-- C7: for every message sent by the worker-side Messenger, a non-null
`exception` field in the parent's response is raised in the worker, an
absent or null one lets the send return normally, and the socket is closed
before control returns in both cases. -/
theorem C7_messenger_raises_response_exception (respExc : Option ExcVal) :
    (Messenger.sendMessage respExc).socketClosed = true ∧
    (∀ e, respExc = some e →
      (Messenger.sendMessage respExc).result = Except.error e) ∧
    (respExc = Option.none →
      (Messenger.sendMessage respExc).result = Except.ok ()) := by
  cases respExc with
  | none => simp [Messenger.sendMessage]
  | some e => simp [Messenger.sendMessage]

/-- Witness for C7: a response carrying a wrapped RuntimeError is raised
and the socket closed; an exception-free response returns normally. -/
theorem C7_messenger_raises_response_exception_witness :
    (Messenger.sendMessage (some ⟨"RuntimeError", "boom"⟩)).socketClosed =
      true ∧
    (Messenger.sendMessage (some ⟨"RuntimeError", "boom"⟩)).result =
      Except.error ⟨"RuntimeError", "boom"⟩ ∧
    (Messenger.sendMessage Option.none).result = Except.ok () :=
  ⟨(C7_messenger_raises_response_exception (some ⟨"RuntimeError", "boom"⟩)).1,
   (C7_messenger_raises_response_exception (some ⟨"RuntimeError", "boom"⟩)).2.1
     ⟨"RuntimeError", "boom"⟩ rfl,
   (C7_messenger_raises_response_exception Option.none).2.2 rfl⟩

/-- C2 counterexample: assigning a null value records
`_Value(initial = _STUB, current = None)` — the initial field is the
`_STUB` sentinel, not null, refuting "when the assigned value is null, both
the initial and the current field of the recorded Value are null" (and with
it "initial = first-observed value"). -/
theorem C2_counterexample :
    lookupAttr
      (set_attribute_listener strCoerce "state" [] "node" 1 PyVal.none).1
      "node" 1 "state" = some (Tracked.scalar ⟨PyVal.stub, PyVal.none⟩) ∧
    PyVal.stub ≠ PyVal.none := by
  constructor
  · rfl
  · intro h
    exact absurd h (by simp)

/-- C2 amended: the set hook records a Value whose current field is a deep
copy of the coerced new value (null when the assigned value is null) and
whose initial field is always the `_STUB` sentinel — overwriting any
previously recorded Value for that attribute — and returns the recorded
current value to the framework. -/
theorem C2_set_listener (ty : PyVal → PyVal) (key modelname : String)
    (tc : TrackedChanges) (id : Nat) (value : PyVal) :
    lookupAttr (set_attribute_listener ty key tc modelname id value).1
        modelname id key =
      some (Tracked.scalar
        ⟨PyVal.stub,
         if value = PyVal.none then PyVal.none else deepcopy (ty value)⟩) ∧
    (set_attribute_listener ty key tc modelname id value).2 =
      (if value = PyVal.none then PyVal.none else deepcopy (ty value)) := by
  constructor
  · simp [set_attribute_listener, lookupAttr, assocLookup_assocSet_self]
  · rfl

/-- C5: on load or refresh of an instrumented entity the hook (a) records,
for each instrumented scalar attribute not already tracked for that entity,
a Value whose initial is the entity's stored value and whose current is the
deep copy of its coercion, (b) leaves already-tracked attributes' Values
unchanged, (c) overwrites the entity's in-memory attribute with the tracked
entry's current value, (d) records Value(null, null) when the stored value
is null, and (e) captures the version column on first observation and
leaves it unchanged otherwise. -/
theorem C5_instance_listener (instrumented : List (String × (PyVal → PyVal)))
    (tc : TrackedChanges) (target : Entity)
    (hnd : (instrumented.map Prod.fst).Nodup)
    (hv : VERSION_ID_COL ∉ instrumented.map Prod.fst) :
    (∀ name ty, (name, ty) ∈ instrumented →
      containsKey (entityTracked tc target) name = false →
      lookupAttr (instance_listener instrumented tc target).1
          target.modelname target.id name =
        some (Tracked.scalar
          ⟨target.getattr name, coerceInit ty (target.getattr name)⟩)) ∧
    (∀ name ty, (name, ty) ∈ instrumented →
      containsKey (entityTracked tc target) name = true →
      lookupAttr (instance_listener instrumented tc target).1
          target.modelname target.id name =
        assocLookup (entityTracked tc target) name) ∧
    (∀ name ty, (name, ty) ∈ instrumented →
      ∃ tr,
        lookupAttr (instance_listener instrumented tc target).1
            target.modelname target.id name = some tr ∧
        assocLookup (instance_listener instrumented tc target).2.attrs name =
          some (trackedCurrent tr)) ∧
    (∀ name ty, (name, ty) ∈ instrumented →
      containsKey (entityTracked tc target) name = false →
      target.getattr name = PyVal.none →
      lookupAttr (instance_listener instrumented tc target).1
          target.modelname target.id name =
        some (Tracked.scalar ⟨PyVal.none, PyVal.none⟩)) ∧
    (∀ v, target.version = some v →
      (containsKey (entityTracked tc target) VERSION_ID_COL = false →
        lookupAttr (instance_listener instrumented tc target).1
            target.modelname target.id VERSION_ID_COL =
          some (Tracked.scalar ⟨PyVal.stub, PyVal.int v⟩)) ∧
      (containsKey (entityTracked tc target) VERSION_ID_COL = true →
        lookupAttr (instance_listener instrumented tc target).1
            target.modelname target.id VERSION_ID_COL =
          assocLookup (entityTracked tc target) VERSION_ID_COL)) := by
  have hnever : ∀ name (ty : PyVal → PyVal), (name, ty) ∈ instrumented →
      name ≠ VERSION_ID_COL := by
    intro name ty hm h
    exact hv (h ▸ List.mem_map.mpr ⟨(name, ty), hm, rfl⟩)
  have hck : ∀ name, name ≠ VERSION_ID_COL →
      containsKey (versionSetdefault (entityTracked tc target) target.version)
          name =
        containsKey (entityTracked tc target) name := by
    intro name h
    exact containsKey_eq_of_lookup_eq
      (versionSetdefault_lookup_ne (entityTracked tc target) target.version name h)
  have hp1 : ∀ name ty, (name, ty) ∈ instrumented →
      containsKey (entityTracked tc target) name = false →
      lookupAttr (instance_listener instrumented tc target).1
          target.modelname target.id name =
        some (Tracked.scalar
          ⟨target.getattr name, coerceInit ty (target.getattr name)⟩) := by
    intro name ty hm hfalse
    have hne := hnever name ty hm
    rw [instance_listener_tc_lookup]
    have hspec := (instance_listener_attrs_spec instrumented
      (versionSetdefault (entityTracked tc target) target.version)
      target.attrs name ty hnd hm).2.1
    have hc1 : containsKey
        (versionSetdefault (entityTracked tc target) target.version) name =
        false := by
      rw [hck name hne]
      exact hfalse
    exact hspec hc1
  refine ⟨hp1, ?_, ?_, ?_, ?_⟩
  · intro name ty hm htrue
    have hne := hnever name ty hm
    rw [instance_listener_tc_lookup]
    have hspec := (instance_listener_attrs_spec instrumented
      (versionSetdefault (entityTracked tc target) target.version)
      target.attrs name ty hnd hm).1
    have hc1 : containsKey
        (versionSetdefault (entityTracked tc target) target.version) name =
        true := by
      rw [hck name hne]
      exact htrue
    rw [hspec hc1]
    exact versionSetdefault_lookup_ne (entityTracked tc target)
      target.version name hne
  · intro name ty hm
    obtain ⟨tr, h1, h2⟩ := (instance_listener_attrs_spec instrumented
      (versionSetdefault (entityTracked tc target) target.version)
      target.attrs name ty hnd hm).2.2
    refine ⟨tr, ?_, ?_⟩
    · rw [instance_listener_tc_lookup]
      exact h1
    · exact h2
  · intro name ty hm hfalse hnull
    rw [hp1 name ty hm hfalse, hnull]
    simp [coerceInit]
  · intro v hv'
    have hframe := (instance_listener_attrs_frame instrumented
      (versionSetdefault (entityTracked tc target) target.version)
      target.attrs VERSION_ID_COL hv).1
    constructor
    · intro hfalse
      rw [instance_listener_tc_lookup, hframe, hv']
      simp [versionSetdefault, hfalse, assocLookup_assocSet_self]
    · intro htrue
      rw [instance_listener_tc_lookup, hframe, hv']
      simp [versionSetdefault, htrue]

/-- Concrete entity used by the C5 witness. -/
def witnessEntity : Entity :=
  { modelname := "node", id := 1,
    attrs := [("state", PyVal.str "s0")], version := some 3 }

/-- Witness for C5: one instrumented attribute `state` with the `str`
coercion, empty prior tracked changes, an entity whose stored state is
`"s0"` and whose version column holds 3. -/
theorem C5_instance_listener_witness :
    lookupAttr (instance_listener [("state", strCoerce)] [] witnessEntity).1
        "node" 1 "state" =
      some (Tracked.scalar ⟨PyVal.str "s0", PyVal.str "s0"⟩) ∧
    lookupAttr (instance_listener [("state", strCoerce)] [] witnessEntity).1
        "node" 1 VERSION_ID_COL =
      some (Tracked.scalar ⟨PyVal.stub, PyVal.int 3⟩) ∧
    assocLookup (instance_listener [("state", strCoerce)] [] witnessEntity).2.attrs
        "state" = some (PyVal.str "s0") := by
  have h := C5_instance_listener [("state", strCoerce)] [] witnessEntity
    (by simp) (by simp [VERSION_ID_COL])
  have e1 := h.1 "state" strCoerce (by simp) rfl
  have e5 := (h.2.2.2.2 3 rfl).1 rfl
  obtain ⟨tr, h1, h2⟩ := h.2.2.1 "state" strCoerce (by simp)
  have htr : tr = Tracked.scalar ⟨PyVal.str "s0", PyVal.str "s0"⟩ := by
    rw [e1] at h1
    exact (Option.some.inj h1).symm
  subst htr
  exact ⟨e1, e5, h2⟩

/-- C10: `clear(target)` removes only the target entity's entry from
`tracked_changes` — every other entity's tracked changes are preserved —
but unconditionally empties the whole new-instances map and the expunge
list; consequently the patched session refresh, which calls `clear(target)`
before refreshing, leaves the instrumentation with no recorded new
instances at all. -/
theorem C10_clear_discards_new_instances (st : InstrState) (modelname : String)
    (id : Nat) :
    lookupInstance
        (Instrumentation.clear st (some (modelname, id))).tracked_changes
        modelname id = Option.none ∧
    (∀ m i, ¬(m = modelname ∧ i = id) →
      lookupInstance
          (Instrumentation.clear st (some (modelname, id))).tracked_changes
          m i =
        lookupInstance st.tracked_changes m i) ∧
    (Instrumentation.clear st (some (modelname, id))).new_instances_as_dict =
      [] ∧
    (Instrumentation.clear st (some (modelname, id))).instances_to_expunge =
      [] ∧
    (∀ instrumented target,
      (patched_refresh instrumented st target).1.new_instances_as_dict = [] ∧
      (patched_refresh instrumented st target).1.instances_to_expunge = []) := by
  refine ⟨?_, ?_, rfl, rfl, ?_⟩
  · simp [Instrumentation.clear, lookupInstance, assocLookup_assocSet_self,
      assocLookup_assocErase_self]
  · intro m i hmi
    by_cases hm : m = modelname
    · subst hm
      have hi : i ≠ id := fun h => hmi ⟨rfl, h⟩
      simp only [Instrumentation.clear, lookupInstance,
        assocLookup_assocSet_self, Option.bind]
      rw [assocLookup_assocErase_ne _ _ _ hi]
      cases h : assocLookup st.tracked_changes m with
      | none => simp [assocGetD, h, assocLookup]
      | some bucket => simp [assocGetD, h]
    · simp only [Instrumentation.clear, lookupInstance]
      rw [assocLookup_assocSet_ne _ _ _ _ (fun h => hm h.symm)]
  · intro instrumented target
    exact ⟨rfl, rfl⟩

/-- Concrete instrumentation state used by the C10 witness: two tracked
nodes, one recorded new log instance, one instance queued for expunge. -/
def witnessInstrState : InstrState :=
  { tracked_changes :=
      [("node",
        [(1, [("state", Tracked.scalar ⟨PyVal.stub, PyVal.str "a"⟩)]),
         (2, [("state", Tracked.scalar ⟨PyVal.stub, PyVal.str "b"⟩)])])]
    new_instances_as_dict :=
      [("log", [("NEW_INSTANCE_0", [("msg", PyVal.str "m")])])]
    instances_to_expunge := [7] }

/-- Witness for C10: clearing node 1 keeps node 2's tracked changes but
drops the recorded new log instance and the expunge queue. -/
theorem C10_clear_discards_new_instances_witness :
    lookupInstance
        (Instrumentation.clear witnessInstrState (some ("node", 1))).tracked_changes
        "node" 1 = Option.none ∧
    lookupInstance
        (Instrumentation.clear witnessInstrState (some ("node", 1))).tracked_changes
        "node" 2 =
      lookupInstance witnessInstrState.tracked_changes "node" 2 ∧
    (Instrumentation.clear witnessInstrState (some ("node", 1))).new_instances_as_dict =
      [] ∧
    (Instrumentation.clear witnessInstrState (some ("node", 1))).instances_to_expunge =
      [] := by
  have h := C10_clear_discards_new_instances witnessInstrState "node" 1
  exact ⟨h.1, h.2.1 "node" 2 (by simp), h.2.2.1, h.2.2.2.1⟩

/-- C8: `_recv_bytes` returns exactly `n` bytes when the connection yields
at least `n` bytes before EOF, and the whole accumulated prefix when EOF
comes first; `_recv_message` reads exactly 4 header bytes, unpacks them as
the length, and then reads exactly that many payload bytes. -/
theorem C8_recv_exactness :
    (∀ (conn : List (List Nat)) (n : Nat), (∀ s ∈ conn, s ≠ []) →
      n ≤ conn.flatten.length →
      (recv_bytes conn n).1.length = n ∧
      (recv_bytes conn n).1 = conn.flatten.take n) ∧
    (∀ (conn : List (List Nat)) (n : Nat), (∀ s ∈ conn, s ≠ []) →
      conn.flatten.length < n →
      (recv_bytes conn n).1 = conn.flatten) ∧
    (∀ conn : List (List Nat), (∀ s ∈ conn, s ≠ []) →
      4 + unpackU32 (conn.flatten.take 4) ≤ conn.flatten.length →
      (recv_message conn).1 = conn.flatten.take 4 ∧
      (recv_message conn).1.length = 4 ∧
      (recv_message conn).2 =
        (conn.flatten.drop 4).take (unpackU32 (conn.flatten.take 4)) ∧
      (recv_message conn).2.length = unpackU32 (conn.flatten.take 4)) := by
  refine ⟨?_, ?_, ?_⟩
  · intro conn n h hn
    have hs := (recv_bytes_spec n conn h).1
    refine ⟨?_, hs⟩
    rw [hs, List.length_take]
    omega
  · intro conn n h hn
    rw [(recv_bytes_spec n conn h).1]
    exact List.take_of_length_le (Nat.le_of_lt hn)
  · intro conn h hlen
    have hhdr := recv_bytes_spec 4 conn h
    have h4 : (recv_bytes conn 4).1 = conn.flatten.take 4 := hhdr.1
    have hpay := recv_bytes_spec (unpackU32 (conn.flatten.take 4))
      (recv_bytes conn 4).2 hhdr.2.2
    have hrm1 : (recv_message conn).1 = (recv_bytes conn 4).1 := rfl
    have hrm2 : (recv_message conn).2 =
        (recv_bytes (recv_bytes conn 4).2
          (unpackU32 (recv_bytes conn 4).1)).1 := rfl
    refine ⟨by rw [hrm1, h4], ?_, ?_, ?_⟩
    · rw [hrm1, h4, List.length_take]
      omega
    · rw [hrm2, h4, hpay.1, hhdr.2.1]
    · rw [hrm2, h4, hpay.1, hhdr.2.1, List.length_take, List.length_drop]
      omega

/-- Witness for C8: a stream `[1,2] ⧺ [3,4,5]`, a 3-byte and an over-long
read, and a framed message with header bytes `[3,0,0,0]` followed by the
3-byte payload `[10,20,30]` split across segments. -/
theorem C8_recv_exactness_witness :
    (recv_bytes [[1, 2], [3, 4, 5]] 3).1 = [1, 2, 3] ∧
    (recv_bytes [[1, 2], [3, 4, 5]] 9).1 = [1, 2, 3, 4, 5] ∧
    (recv_message [[3, 0], [0, 0, 10, 20], [30]]).1 = [3, 0, 0, 0] ∧
    (recv_message [[3, 0], [0, 0, 10, 20], [30]]).2 = [10, 20, 30] := by
  have h1 := (C8_recv_exactness.1 [[1, 2], [3, 4, 5]] 3 (by decide) (by decide)).2
  have h2 := C8_recv_exactness.2.1 [[1, 2], [3, 4, 5]] 9 (by decide) (by decide)
  have h3 := C8_recv_exactness.2.2 [[3, 0], [0, 0, 10, 20], [30]] (by decide)
    (by decide)
  exact ⟨h1, h2, h3.1, h3.2.2.1⟩

/-- C3: in an apply call, an assignment to an attribute happens exactly
when a scalar entry for it has `initial ≠ current`; an entry with
`initial = current` causes no assignment, so the stored attribute value is
untouched by that entry. -/
theorem C3_noop_scalar_entries (m : String) (i : Nat)
    (attrs : List (String × Tracked)) (a : String) :
    ((∃ c, ApplyEvent.setAttr m i a c ∈
        okEvents (apply_tracked_changes [(m, [(i, attrs)])] [])) ↔
      ∃ v : Value, (a, Tracked.scalar v) ∈ attrs ∧ v.initial ≠ v.current) ∧
    (∀ v : Value, (a, Tracked.scalar v) ∈ attrs → v.initial ≠ v.current →
      ApplyEvent.setAttr m i a v.current ∈
        okEvents (apply_tracked_changes [(m, [(i, attrs)])] [])) := by
  constructor
  · constructor
    · rintro ⟨c, hc⟩
      obtain ⟨v, hv, hne, _⟩ := (setAttr_mem_apply_single m i a c attrs).mp hc
      exact ⟨v, hv, hne⟩
    · rintro ⟨v, hv, hne⟩
      exact ⟨v.current,
        (setAttr_mem_apply_single m i a v.current attrs).mpr ⟨v, hv, hne, rfl⟩⟩
  · intro v hv hne
    exact (setAttr_mem_apply_single m i a v.current attrs).mpr ⟨v, hv, hne, rfl⟩

/-- Witness for C3: a no-op `state` entry (initial = current = "a") causes
no assignment while a dirty `status` entry (initial "a", current "b") is
assigned its current value. -/
theorem C3_noop_scalar_entries_witness :
    (¬∃ c, ApplyEvent.setAttr "node" 1 "state" c ∈
      okEvents (apply_tracked_changes
        [("node",
          [(1, [("state", Tracked.scalar ⟨PyVal.str "a", PyVal.str "a"⟩),
                ("status", Tracked.scalar ⟨PyVal.str "a", PyVal.str "b"⟩)])])]
        [])) ∧
    ApplyEvent.setAttr "node" 1 "status" (PyVal.str "b") ∈
      okEvents (apply_tracked_changes
        [("node",
          [(1, [("state", Tracked.scalar ⟨PyVal.str "a", PyVal.str "a"⟩),
                ("status", Tracked.scalar ⟨PyVal.str "a", PyVal.str "b"⟩)])])]
        []) := by
  have h := C3_noop_scalar_entries "node" 1
    [("state", Tracked.scalar ⟨PyVal.str "a", PyVal.str "a"⟩),
     ("status", Tracked.scalar ⟨PyVal.str "a", PyVal.str "b"⟩)] "state"
  have h2 := (C3_noop_scalar_entries "node" 1
    [("state", Tracked.scalar ⟨PyVal.str "a", PyVal.str "a"⟩),
     ("status", Tracked.scalar ⟨PyVal.str "a", PyVal.str "b"⟩)] "status").2
    ⟨PyVal.str "a", PyVal.str "b"⟩ (by simp) (by decide)
  refine ⟨fun hex => ?_, h2⟩
  obtain ⟨v, hv, hne⟩ := h.1.mp hex
  simp at hv
  subst hv
  exact hne rfl

/-- C1, evaluated at the failing inputs: with an empty tracked-changes map
the applier performs nothing at all — the recorded new instance is neither
constructed nor persisted, because the new-instances loop is nested inside
the loop over `tracked_changes.items()`; and with two tracked models plus
one new instance, the second outer iteration re-runs the new-instances loop
on the already-resolved slot and raises `TypeError` instead of persisting
each entry exactly once per call. -/
theorem C1_new_instances_nested_loop :
    apply_tracked_changes []
        [("log",
          [("NEW_INSTANCE_0", NewSlot.kwargs [("msg", PyVal.str "m")])])] =
      Except.ok [] ∧
    apply_tracked_changes
        [("node", [(1, [("state", Tracked.scalar ⟨PyVal.stub, PyVal.str "x"⟩)])]),
         ("task", [(2, [("status", Tracked.scalar ⟨PyVal.stub, PyVal.str "y"⟩)])])]
        [("log",
          [("NEW_INSTANCE_0", NewSlot.kwargs [("msg", PyVal.str "m")])])] =
      Except.error "TypeError: argument after ** must be a mapping" :=
  ⟨rfl, rfl⟩

end Aria
